import Mathlib

/-!
Shallow embedding of the calculation and comparison engine of
`src/app.js` (EVE ore/ice harvesting rate calculator).

Modelling conventions:
- JavaScript numbers are modelled as exact rationals (`ℚ`).  The code never
  produces `NaN`/`Infinity` on the paths embedded here, so `Number.isFinite`
  checks are vacuously true in the model and are noted where they occur.
- `Math.floor` on a rational is `Int.floor`.
- JSON objects holding material breakdowns (`typeMaterials`) are modelled as
  lists of entries; a price map is a function `ℚ → Option ℚ` where `none`
  models a missing/unknown price (`null` in the code).
- `Array.prototype.sort` with a consistent numeric comparator is a stable
  sort (mandated by the ECMAScript standard); it is modelled by the stable
  insertion sort `stableSort` below, parameterised by the strict predicate
  `lt a b ↔ comparator a b < 0`.  For a consistent comparator a stable sort
  is uniquely determined, so the model is faithful to any conforming engine.
-/

namespace EveHarvest

/-- js `clamp(n, lo, hi) = Math.min(hi, Math.max(lo, n))` (src/app.js:100). -/
def clamp (n lo hi : ℚ) : ℚ := min hi (max lo n)

/-- The floating point guard `1e-9` added before flooring. -/
def eps : ℚ := 1 / 1000000000

/-- Result record of `calcCycles` (src/app.js:298). -/
structure CycleResult where
  totalSeconds : ℚ
  cycles : ℤ
  usedSeconds : ℚ
  leftoverSeconds : ℚ
deriving DecidableEq, Repr

/-- js `calcCycles(durationMinutes, cycleTimeSeconds)` (src/app.js:298-304). -/
def calcCycles (durationMinutes cycleTimeSeconds : ℚ) : CycleResult :=
  let totalSeconds : ℚ := max 0 (durationMinutes * 60)
  let cycles : ℤ := if cycleTimeSeconds > 0 then ⌊totalSeconds / cycleTimeSeconds⌋ else 0
  let usedSeconds : ℚ := (cycles : ℚ) * cycleTimeSeconds
  let leftoverSeconds : ℚ := totalSeconds - usedSeconds
  ⟨totalSeconds, cycles, usedSeconds, leftoverSeconds⟩

/-- js `calcUnitsMined(volumeM3, unitVolumeM3)` (src/app.js:306-310):
`if (!(unitVolumeM3 > 0)) return 0; return Math.floor(volumeM3 / unitVolumeM3 + 1e-9)`. -/
def calcUnitsMined (volumeM3 unitVolumeM3 : ℚ) : ℤ :=
  if unitVolumeM3 > 0 then ⌊volumeM3 / unitVolumeM3 + eps⌋ else 0

/-- One entry of a `type_materials` record: `{ material_type_id, quantity }`.
The numeric coercions `Number(rec?.material_type_id ?? key)` and
`Number(rec?.quantity ?? 0)` are modelled by the fields already being
rationals. -/
structure MatEntry where
  material_type_id : ℚ
  quantity : ℚ
deriving DecidableEq, Repr

/-- One output row of `computeReprocessOutputs` (src/app.js:328). -/
structure OutputRow where
  typeId : ℚ
  qty : ℤ
  qtyPerPortion : ℚ
deriving DecidableEq, Repr

/-- Stable insertion of `x` into `l`: `x` passes over exactly the elements `y`
with `lt y x`, so among comparator ties the earlier element stays first.
This is the insertion step of the stable-sort model of
`Array.prototype.sort`. -/
def sInsert (lt : α → α → Bool) (x : α) : List α → List α
  | [] => [x]
  | y :: ys => if lt y x then y :: sInsert lt x ys else x :: y :: ys

/-- Stable sort by the strict comparator predicate `lt`
(`lt a b ↔ comparator a b < 0`). -/
def stableSort (lt : α → α → Bool) : List α → List α
  | [] => []
  | x :: xs => sInsert lt x (stableSort lt xs)

/-- The comparator of src/app.js:332,
`(a, b) => (b.qty - a.qty) || (a.typeId - b.typeId)`, as the strict
predicate `comparator a b < 0`: descending by `qty`, ties broken by
ascending `typeId`. -/
def reproLt (a b : OutputRow) : Bool :=
  decide (b.qty < a.qty) || (decide (b.qty = a.qty) && decide (a.typeId < b.typeId))

/-- js `computeReprocessOutputs({units, portionSize, typeMaterials, yieldPct})`
(src/app.js:312-334).  Note `batches = units / ps` performs exact division
(no flooring), and `Math.max(1, Number(portionSize) || 1)` maps a zero (or
missing) portion size to 1 before the `max`.  The `Number.isFinite` guards
of lines 324-325 cannot fail in the rational model, so only the sign checks
remain. -/
def computeReprocessOutputs (units portionSize : ℚ) (typeMaterials : List MatEntry)
    (yieldPct : ℚ) : List OutputRow :=
  let eff := clamp yieldPct 0 100 / 100
  let ps := max 1 (if portionSize = 0 then 1 else portionSize)
  let batches := units / ps
  let outputs := typeMaterials.filterMap (fun mat =>
    if mat.material_type_id ≤ 0 then none
    else if mat.quantity ≤ 0 then none
    else some { typeId := mat.material_type_id,
                qty := ⌊batches * mat.quantity * eff + eps⌋,
                qtyPerPortion := mat.quantity })
  stableSort reproLt outputs

/-- One reprocessing output row built inside `onCalculate`
(src/app.js:806-812).  The display name looked up from `namesMap` is
presentation data and is not part of the model. -/
structure ReproRow where
  typeId : ℚ
  qty : ℤ
  sellMin : Option ℚ
  totalValue : Option ℚ
deriving DecidableEq, Repr

/-- The comparator of src/app.js:815,
`(a, b) => (b.totalValue ?? 0) - (a.totalValue ?? 0)`, as the strict
predicate `comparator a b < 0`: descending by total value with unknown
values read as 0. -/
def valueLt (a b : ReproRow) : Bool :=
  decide (b.totalValue.getD 0 < a.totalValue.getD 0)

/-- One candidate row as assembled by `onCalculate` (src/app.js:823-835). -/
structure CandidateRow where
  typeId : ℚ
  unitsMined : ℚ
  oreSell : Option ℚ
  rawTotal : Option ℚ
  rawPerHour : Option ℚ
  reprocessRows : List ReproRow
  reprocessTotal : ℚ
  taxFee : ℚ
  reprocessNet : ℚ
  reprocessPerHour : Option ℚ
deriving DecidableEq, Repr

/-- The body of the reprocessing loop of `onCalculate` (src/app.js:797-813)
for one material entry: `qty = Math.floor(portions * baseQty * yieldFrac)`
(no `1e-9` here), `sellMin = getPriceSellMin(priceMap, outId)`,
`totalValue = sellMin !== null ? sellMin * qty : null`. -/
def reproRowOf (priceMap : ℚ → Option ℚ) (portions : ℤ) (yieldFrac : ℚ)
    (mat : MatEntry) : ReproRow :=
  let qty : ℤ := ⌊(portions : ℚ) * mat.quantity * yieldFrac⌋
  let sellMin := priceMap mat.material_type_id
  { typeId := mat.material_type_id,
    qty := qty,
    sellMin := sellMin,
    totalValue := sellMin.map (fun s => s * (qty : ℚ)) }

/-- The per-candidate computation of `onCalculate` (src/app.js:785-836):
raw total, reprocessing rows (one per breakdown entry, no validity filter on
this path), gross total accumulated only from rows with a known price
(`if (totalValue !== null) reprocessTotal += totalValue`, rendered here as
summing `totalValue.getD 0`), rows then sorted descending by total value,
tax, net, and guarded per-hour rates. -/
def onCalculateRow (priceMap : ℚ → Option ℚ) (typeId unitsMined portionSize : ℚ)
    (typeMaterials : List MatEntry) (yieldFrac taxPct usedSeconds : ℚ) : CandidateRow :=
  let oreSell := priceMap typeId
  let rawTotal := oreSell.map (fun p => p * unitsMined)
  let portion := max 1 (if portionSize = 0 then 1 else portionSize)
  let portions : ℤ := ⌊unitsMined / portion⌋
  let rowsUnsorted := typeMaterials.map (reproRowOf priceMap portions yieldFrac)
  let reprocessTotal := (rowsUnsorted.map (fun r => r.totalValue.getD 0)).sum
  let reprocessRows := stableSort valueLt rowsUnsorted
  let taxFee := if taxPct > 0 then reprocessTotal * (taxPct / 100) else 0
  let reprocessNet := reprocessTotal - taxFee
  let rawPerHour := if usedSeconds > 0 then rawTotal.map (fun t => t * (3600 / usedSeconds)) else none
  let reprocessPerHour := if usedSeconds > 0 then some (reprocessNet * (3600 / usedSeconds)) else none
  { typeId := typeId,
    unitsMined := unitsMined,
    oreSell := oreSell,
    rawTotal := rawTotal,
    rawPerHour := rawPerHour,
    reprocessRows := reprocessRows,
    reprocessTotal := reprocessTotal,
    taxFee := taxFee,
    reprocessNet := reprocessNet,
    reprocessPerHour := reprocessPerHour }

/-- The inline unit computation of `onCalculate` (src/app.js:750):
`units = Math.floor(totalM3 / (td.volume || 1))` (no epsilon, no
non-positivity guard). -/
def onCalculateUnits (totalM3 volume : ℚ) : ℤ :=
  ⌊totalM3 / (if volume = 0 then 1 else volume)⌋

/-- The advanced-yield click handler of `wireEvents`
(src/app.js:917-948): skills floored then clamped to `[0,5]`, implant and
tax percentages clamped below at 0, security modifier applied only with a
positive rig bonus, final clamp of the effective fraction to `[0,1]`. -/
def applyAdvancedYield (basePct rigPts secPct skillR skillRE skillOP implantPctIn : ℚ) : ℚ :=
  let levelR : ℤ := max 0 (min 5 ⌊skillR⌋)
  let levelRE : ℤ := max 0 (min 5 ⌊skillRE⌋)
  let levelOP : ℤ := max 0 (min 5 ⌊skillOP⌋)
  let implantPct : ℚ := max 0 implantPctIn
  let by0 : ℚ := (basePct + rigPts) / 100
  let by1 : ℚ := if rigPts > 0 ∧ secPct > 0 then by0 * (1 + secPct / 100) else by0
  let eff : ℚ := by1 * (1 + 3 / 100 * (levelR : ℚ)) * (1 + 2 / 100 * (levelRE : ℚ))
    * (1 + 2 / 100 * (levelOP : ℚ)) * (1 + implantPct / 100)
  max 0 (min 1 eff)

/-- The yield formula exactly as claim C3 words it: skills clamped to
integers in `[0,5]`, base yield `(basePct + rigBonusPoints)/100` multiplied
by `(1 + securityModPct/100)` exactly when both the rig bonus and the
security modifier are positive, and `implantPct` taken raw (not clamped). -/
def claimedYieldC3 (basePct rigPts secPct skillR skillRE skillOP implantPct : ℚ) : ℚ :=
  let levelR : ℤ := max 0 (min 5 ⌊skillR⌋)
  let levelRE : ℤ := max 0 (min 5 ⌊skillRE⌋)
  let levelOP : ℤ := max 0 (min 5 ⌊skillOP⌋)
  let baseYield : ℚ :=
    if rigPts > 0 ∧ secPct > 0 then ((basePct + rigPts) / 100) * (1 + secPct / 100)
    else (basePct + rigPts) / 100
  clamp (baseYield * (1 + 3 / 100 * (levelR : ℚ)) * (1 + 2 / 100 * (levelRE : ℚ))
    * (1 + 2 / 100 * (levelOP : ℚ)) * (1 + implantPct / 100)) 0 1

/-- Sort keys of the comparison table (src/app.js:623-630). -/
inductive SortKey
  | name
  | unitsMined
  | rawPerHour
  | reprocessPerHour
  | rawTotal
  | reprocessNet
deriving DecidableEq, Repr

/-- Sort directions of the comparison table. -/
inductive SortDir
  | asc
  | desc
deriving DecidableEq, Repr

/-- Direction flip performed by a click on the active header
(src/app.js:671). -/
def SortDir.toggle : SortDir → SortDir
  | .asc => .desc
  | .desc => .asc

/-- js `a[state.key] ?? 0` before coercion: the candidate row objects built
in `onCalculate` carry no top-level `name` property (the display name lives
in `typeData`), so the `name` key reads `undefined` on every row; the other
keys read the numeric field, which may be `null` for the guarded values. -/
def keyVal : SortKey → CandidateRow → Option ℚ
  | .name, _ => none
  | .unitsMined, r => some r.unitsMined
  | .rawPerHour, r => r.rawPerHour
  | .reprocessPerHour, r => r.reprocessPerHour
  | .rawTotal, r => r.rawTotal
  | .reprocessNet, r => some r.reprocessNet

/-- The value actually compared: `a[state.key] ?? 0`. -/
def sortVal (k : SortKey) (r : CandidateRow) : ℚ := (keyVal k r).getD 0

/-- The comparator of src/app.js:617-621 as the strict predicate
`comparator a b < 0`. -/
def compareLt (k : SortKey) (d : SortDir) (a b : CandidateRow) : Bool :=
  match d with
  | .asc => decide (sortVal k a < sortVal k b)
  | .desc => decide (sortVal k b < sortVal k a)

/-- The sort performed by `renderComparison` (src/app.js:617-621):
`rows.slice().sort(comparator)`. -/
def renderComparisonSort (rows : List CandidateRow) (k : SortKey) (d : SortDir) :
    List CandidateRow :=
  stableSort (compareLt k d) rows

/-- The non-strict ordering that the comparison table is sorted by. -/
def keyLe (k : SortKey) (d : SortDir) (a b : CandidateRow) : Prop :=
  match d with
  | .asc => sortVal k a ≤ sortVal k b
  | .desc => sortVal k b ≤ sortVal k a

/-- Errors thrown by the target-resolution part of `onCalculate`
(src/app.js:727-738). -/
inductive CalcError
  | emptyName
  | unresolved (nm : String)
deriving DecidableEq, Repr

/-- The resolution loop `for (const nm of names.slice(0, 12))`
(src/app.js:733-737): resolve each name, throw on the first failure,
otherwise accumulate `(name, typeId)` targets in order. -/
def resolveLoop (resolve : String → Option ℕ) : List String → Except CalcError (List (String × ℕ))
  | [] => .ok []
  | nm :: rest =>
    match resolve nm with
    | none => .error (.unresolved nm)
    | some id =>
      match resolveLoop resolve rest with
      | .error e => .error e
      | .ok ts => .ok ((nm, id) :: ts)

/-- Target resolution of `onCalculate` for comma-separated names
(src/app.js:727-738): an empty list is an error, otherwise only the first
12 names are resolved. -/
def onCalculateTargets (resolve : String → Option ℕ) (names : List String) :
    Except CalcError (List (String × ℕ)) :=
  if names = [] then .error .emptyName
  else resolveLoop resolve (names.take 12)

/-- The warning of src/app.js:738, shown exactly when more than 12 names
were entered. -/
def capWarning (names : List String) : Bool := decide (names.length > 12)

/-! ### Generic facts about the stable sort model -/

theorem sInsert_perm (lt : α → α → Bool) (x : α) (l : List α) :
    List.Perm (sInsert lt x l) (x :: l) := by
  induction l with
  | nil => simp [sInsert]
  | cons y ys ih =>
    by_cases h : lt y x
    · rw [sInsert, if_pos h]
      exact (ih.cons y).trans (List.Perm.swap x y ys)
    · rw [sInsert, if_neg h]

theorem stableSort_perm (lt : α → α → Bool) (l : List α) :
    List.Perm (stableSort lt l) l := by
  induction l with
  | nil => simp [stableSort]
  | cons x xs ih => exact (sInsert_perm lt x (stableSort lt xs)).trans (ih.cons x)

theorem mem_stableSort (lt : α → α → Bool) (l : List α) (a : α) :
    a ∈ stableSort lt l ↔ a ∈ l :=
  (stableSort_perm lt l).mem_iff

theorem pairwise_sInsert (lt : α → α → Bool)
    (hasym : ∀ a b, lt a b = true → lt b a = false)
    (hneg : ∀ a b c, lt a c = true → lt a b = true ∨ lt b c = true)
    (x : α) (l : List α) (hl : l.Pairwise (fun a b => lt b a = false)) :
    (sInsert lt x l).Pairwise (fun a b => lt b a = false) := by
  induction l with
  | nil => simp [sInsert]
  | cons y ys ih =>
    rcases List.pairwise_cons.mp hl with ⟨hy, hys⟩
    by_cases h : lt y x
    · rw [sInsert, if_pos h]
      refine List.pairwise_cons.mpr ⟨?_, ih hys⟩
      intro z hz
      rcases List.mem_cons.mp ((sInsert_perm lt x ys).mem_iff.mp hz) with rfl | hz2
      · exact hasym y z h
      · exact hy z hz2
    · rw [sInsert, if_neg h]
      refine List.pairwise_cons.mpr ⟨?_, hl⟩
      intro z hz
      rcases List.mem_cons.mp hz with rfl | hz2
      · exact Bool.not_eq_true _ |>.mp h
      · cases hzx : lt z x with
        | false => rfl
        | true =>
          exfalso
          rcases hneg z y x hzx with h1 | h1
          · rw [hy z hz2] at h1
            exact Bool.false_ne_true h1
          · exact h h1

theorem pairwise_stableSort (lt : α → α → Bool)
    (hasym : ∀ a b, lt a b = true → lt b a = false)
    (hneg : ∀ a b c, lt a c = true → lt a b = true ∨ lt b c = true)
    (l : List α) :
    (stableSort lt l).Pairwise (fun a b => lt b a = false) := by
  induction l with
  | nil => simp [stableSort]
  | cons x xs ih => exact pairwise_sInsert lt hasym hneg x _ ih

theorem filter_sInsert (lt : α → α → Bool) (p : α → Bool) (x : α) (l : List α)
    (hx : ∀ y, p y = true → p x = true → lt y x = false) :
    (sInsert lt x l).filter p = (x :: l).filter p := by
  induction l with
  | nil => rfl
  | cons y ys ih =>
    by_cases h : lt y x
    · rw [sInsert, if_pos h]
      by_cases hpy : p y
      · have hpx : p x = false := by
          cases hpx : p x with
          | false => rfl
          | true =>
            rw [hx y hpy hpx] at h
            exact absurd h (by simp)
        simp [List.filter_cons, hpy, hpx, ih]
      · simp only [List.filter_cons, Bool.not_eq_true] at hpy ⊢
        rw [hpy]
        simp only [if_false, Bool.false_eq_true, ite_false]
        rw [ih]
        simp [List.filter_cons, hpy]
    · rw [sInsert, if_neg h]

theorem filter_stableSort (lt : α → α → Bool) (p : α → Bool)
    (hp : ∀ a b, p a = true → p b = true → lt a b = false) (l : List α) :
    (stableSort lt l).filter p = l.filter p := by
  induction l with
  | nil => rfl
  | cons x xs ih =>
    rw [stableSort, filter_sInsert lt p x _ (fun y hy hx => hp y x hy hx)]
    simp [List.filter_cons, ih]

theorem sum_getD_eq_sum_filterMap (l : List ReproRow) :
    (l.map (fun r => r.totalValue.getD 0)).sum
      = (l.filterMap (fun r => r.totalValue)).sum := by
  induction l with
  | nil => rfl
  | cons r rs ih => cases h : r.totalValue <;> simp [List.filterMap_cons, h, ih]

theorem max_min_comm01 (e : ℚ) : max 0 (min 1 e) = clamp e 0 1 := by
  rw [clamp, max_min_distrib_left]
  norm_num

/-! ### Claim theorems -/

/-- Claim C4 (Cycle Accountant): for every `durationMinutes ≥ 0` and
`cycleTimeSeconds > 0`, `totalSeconds = durationMinutes*60`,
`cycles = ⌊totalSeconds / cycleTimeSeconds⌋`,
`usedSeconds = cycles * cycleTimeSeconds`,
`usedSeconds + leftoverSeconds = durationMinutes*60` exactly,
`usedSeconds ≤ totalSeconds`, and `leftoverSeconds ∈ [0, cycleTimeSeconds)`;
and for every `cycleTimeSeconds ≤ 0`, `cycles = 0`. -/
theorem claim_C4_cycleAccountant (durationMinutes cycleTimeSeconds : ℚ) :
    (0 ≤ durationMinutes → 0 < cycleTimeSeconds →
      (calcCycles durationMinutes cycleTimeSeconds).totalSeconds = durationMinutes * 60
      ∧ (calcCycles durationMinutes cycleTimeSeconds).cycles
          = ⌊durationMinutes * 60 / cycleTimeSeconds⌋
      ∧ (calcCycles durationMinutes cycleTimeSeconds).usedSeconds
          = ((calcCycles durationMinutes cycleTimeSeconds).cycles : ℚ) * cycleTimeSeconds
      ∧ (calcCycles durationMinutes cycleTimeSeconds).usedSeconds
          + (calcCycles durationMinutes cycleTimeSeconds).leftoverSeconds
          = durationMinutes * 60
      ∧ (calcCycles durationMinutes cycleTimeSeconds).usedSeconds
          ≤ (calcCycles durationMinutes cycleTimeSeconds).totalSeconds
      ∧ 0 ≤ (calcCycles durationMinutes cycleTimeSeconds).leftoverSeconds
      ∧ (calcCycles durationMinutes cycleTimeSeconds).leftoverSeconds < cycleTimeSeconds)
    ∧ (cycleTimeSeconds ≤ 0 → (calcCycles durationMinutes cycleTimeSeconds).cycles = 0) := by
  constructor
  · intro hd hct
    have h60 : (0 : ℚ) ≤ durationMinutes * 60 := by positivity
    have hmax : max 0 (durationMinutes * 60) = durationMinutes * 60 := max_eq_right h60
    have hne : cycleTimeSeconds ≠ 0 := ne_of_gt hct
    have hfl : ((⌊durationMinutes * 60 / cycleTimeSeconds⌋ : ℚ))
        ≤ durationMinutes * 60 / cycleTimeSeconds := Int.floor_le _
    have hfl2 : durationMinutes * 60 / cycleTimeSeconds
        < (⌊durationMinutes * 60 / cycleTimeSeconds⌋ : ℚ) + 1 := Int.lt_floor_add_one _
    have h1 : ((⌊durationMinutes * 60 / cycleTimeSeconds⌋ : ℚ)) * cycleTimeSeconds
        ≤ durationMinutes * 60 := by
      have := mul_le_mul_of_nonneg_right hfl (le_of_lt hct)
      rwa [div_mul_cancel₀ _ hne] at this
    have h2 : durationMinutes * 60
        < ((⌊durationMinutes * 60 / cycleTimeSeconds⌋ : ℚ) + 1) * cycleTimeSeconds := by
      have := mul_lt_mul_of_pos_right hfl2 hct
      rwa [div_mul_cancel₀ _ hne] at this
    simp only [calcCycles, if_pos hct, hmax]
    refine ⟨by trivial, by trivial, by trivial, by ring, ?_, ?_, ?_⟩
    · exact h1
    · linarith
    · linarith
  · intro hct
    have : ¬ cycleTimeSeconds > 0 := not_lt.mpr hct
    simp only [calcCycles, if_neg this]

/-- Witness for C4 at the spec end-to-end scenario 1:
`durationMinutes = 15`, `cycleTimeSeconds = 92.2` gives 9 cycles,
`usedSeconds = 829.8` and `totalSeconds = 900`. -/
theorem claim_C4_witness :
    (calcCycles 15 (461 / 5)).totalSeconds = 900
    ∧ (calcCycles 15 (461 / 5)).cycles = 9
    ∧ (calcCycles 15 (461 / 5)).usedSeconds = 4149 / 5 := by
  obtain ⟨h1, -⟩ := claim_C4_cycleAccountant 15 (461 / 5)
  obtain ⟨ht, hc, hu, -, -, -, -⟩ := h1 (by norm_num) (by norm_num)
  have hcv : (⌊(15 : ℚ) * 60 / (461 / 5)⌋ : ℤ) = 9 := by
    rw [show (15 : ℚ) * 60 / (461 / 5) = 4500 / 461 by norm_num]
    norm_num [Int.floor_eq_iff]
  refine ⟨by rw [ht]; norm_num, by rw [hc, hcv], ?_⟩
  rw [hu, hc, hcv]
  norm_num

/-- Claim C8 (security-modifier noninterference): with `rigBonusPoints = 0`
any two values of `securityModPct` give the same effective yield, and the
scenario `basePct = 52`, rig 0, security 10, skills 0, implant 0 gives
exactly 0.52. -/
theorem claim_C8_securityNoninterference
    (basePct skillR skillRE skillOP implantPct secPct1 secPct2 : ℚ) :
    applyAdvancedYield basePct 0 secPct1 skillR skillRE skillOP implantPct
      = applyAdvancedYield basePct 0 secPct2 skillR skillRE skillOP implantPct
    ∧ applyAdvancedYield 52 0 10 0 0 0 0 = 13 / 25 := by
  constructor
  · simp [applyAdvancedYield]
  · norm_num [applyAdvancedYield]

/-- Counterexample to claim C2 as stated: the claim asserts the result is a
non-negative integer for every `totalVolume`, but
`calcUnitsMined (-5) 1 = -5 < 0`. -/
theorem claim_C2_counterexample :
    calcUnitsMined (-5) 1 = -5 ∧ calcUnitsMined (-5) 1 < 0 := by
  have h : calcUnitsMined (-5) 1 = -5 := by
    rw [calcUnitsMined, if_pos (by norm_num), eps]
    norm_num [Int.floor_eq_iff]
  exact ⟨h, by rw [h]; norm_num⟩

/-- Claim C2 as amended (Quantity Converter `calcUnitsMined`): a
non-positive unit volume gives 0 units, otherwise the result is
`⌊totalVolume / unitVolume + 1e-9⌋`, which is non-negative whenever
`totalVolume ≥ 0`; for `totalVolume = 9000` and `unitVolume = 0.1` the
result is exactly 90000. -/
theorem claim_C2_amended (totalVolume unitVolume : ℚ) :
    (unitVolume ≤ 0 → calcUnitsMined totalVolume unitVolume = 0)
    ∧ (0 < unitVolume →
        calcUnitsMined totalVolume unitVolume = ⌊totalVolume / unitVolume + 1 / 1000000000⌋)
    ∧ (0 < unitVolume → 0 ≤ totalVolume → 0 ≤ calcUnitsMined totalVolume unitVolume)
    ∧ calcUnitsMined 9000 (1 / 10) = 90000 := by
  refine ⟨?_, ?_, ?_, ?_⟩
  · intro h
    rw [calcUnitsMined, if_neg (not_lt.mpr h)]
  · intro h
    rw [calcUnitsMined, if_pos h, eps]
  · intro h hv
    rw [calcUnitsMined, if_pos h]
    refine Int.floor_nonneg.mpr ?_
    have : (0 : ℚ) ≤ totalVolume / unitVolume := div_nonneg hv (le_of_lt h)
    rw [eps]
    positivity
  · rw [calcUnitsMined, if_pos (by norm_num), eps]
    norm_num [Int.floor_eq_iff]

/-- Witness for C2 at the spec end-to-end scenario 1: 9000 m3 at 0.1 m3 per
unit is exactly 90000 units, a non-negative count. -/
theorem claim_C2_witness :
    calcUnitsMined 9000 (1 / 10) = 90000 ∧ 0 ≤ calcUnitsMined 9000 (1 / 10) := by
  obtain ⟨-, -, h3, h4⟩ := claim_C2_amended 9000 (1 / 10)
  exact ⟨h4, h3 (by norm_num) (by norm_num)⟩

/-- Counterexample to claim C3 as stated: the claim takes `implantPct` raw,
but the handler clamps it below at 0 (src/app.js:926); at
`basePct = 100`, all else 0 and `implantPct = -50` the code yields 1 while
the claimed formula yields 0.5. -/
theorem claim_C3_counterexample :
    applyAdvancedYield 100 0 0 0 0 0 (-50) = 1
    ∧ claimedYieldC3 100 0 0 0 0 0 (-50) = 1 / 2
    ∧ applyAdvancedYield 100 0 0 0 0 0 (-50) ≠ claimedYieldC3 100 0 0 0 0 0 (-50) := by
  have h1 : applyAdvancedYield 100 0 0 0 0 0 (-50) = 1 := by
    norm_num [applyAdvancedYield]
  have h2 : claimedYieldC3 100 0 0 0 0 0 (-50) = 1 / 2 := by
    norm_num [claimedYieldC3, clamp]
  exact ⟨h1, h2, by rw [h1, h2]; norm_num⟩

/-- Claim C3 as amended (Yield Formula Evaluator): the handler computes
exactly the claimed clamped formula except that `implantPct` is also
clamped below at 0 before use (skill levels are floored and clamped to
`[0,5]` as claimed; there is no failure path, the function is total). -/
theorem claim_C3_amended (basePct rigPts secPct skillR skillRE skillOP implantPct : ℚ) :
    applyAdvancedYield basePct rigPts secPct skillR skillRE skillOP implantPct
      = claimedYieldC3 basePct rigPts secPct skillR skillRE skillOP (max 0 implantPct) := by
  simp only [applyAdvancedYield, claimedYieldC3]
  rw [max_min_comm01]

/-- Counterexample to claim C9 as stated: the product
`0.572*1.15*1.10*1.10*1.05` the code computes equals `0.8357349` exactly,
which is not approximately `0.851` (it differs by more than 0.01). -/
theorem claim_C9_counterexample :
    applyAdvancedYield 50 2 10 5 5 5 5 = 8357349 / 10000000
    ∧ 1 / 100 < |(8357349 : ℚ) / 10000000 - 851 / 1000| := by
  constructor
  · norm_num [applyAdvancedYield]
  · rw [abs_sub_comm, show (851 : ℚ) / 1000 - 8357349 / 10000000 = 152651 / 10000000 by norm_num,
      abs_of_pos (by norm_num)]
    norm_num

/-- Claim C9 as amended: for `basePct = 50`, `rigBonusPoints = 2`,
`securityModPct = 10`, all skills 5 and `implantPct = 5`, the base yield is
`0.52*1.10 = 0.572` and the effective fraction is
`0.572*1.15*1.10*1.10*1.05 = 0.8357349` exactly (approximately 0.836),
below the clamp of 1. -/
theorem claim_C9_amended :
    (52 : ℚ) / 100 * (110 / 100) = 572 / 1000
    ∧ applyAdvancedYield 50 2 10 5 5 5 5
        = 572 / 1000 * (115 / 100) * (110 / 100) * (110 / 100) * (105 / 100)
    ∧ applyAdvancedYield 50 2 10 5 5 5 5 = 8357349 / 10000000
    ∧ applyAdvancedYield 50 2 10 5 5 5 5 < 1
    ∧ |(8357349 : ℚ) / 10000000 - 836 / 1000| < 1 / 1000 := by
  refine ⟨by norm_num, ?_, ?_, ?_, ?_⟩
  · norm_num [applyAdvancedYield]
  · norm_num [applyAdvancedYield]
  · norm_num [applyAdvancedYield]
  · rw [abs_sub_comm, show (836 : ℚ) / 1000 - 8357349 / 10000000 = 2651 / 10000000 by norm_num,
      abs_of_pos (by norm_num)]
    norm_num

theorem compareLt_asym (k : SortKey) (d : SortDir) :
    ∀ a b, compareLt k d a b = true → compareLt k d b a = false := by
  intro a b
  cases d <;>
    simp only [compareLt, decide_eq_true_eq, decide_eq_false_iff_not] <;>
    exact fun h => lt_asymm h

theorem compareLt_negtrans (k : SortKey) (d : SortDir) :
    ∀ a b c, compareLt k d a c = true → compareLt k d a b = true ∨ compareLt k d b c = true := by
  intro a b c
  cases d with
  | asc =>
    simp only [compareLt, decide_eq_true_eq]
    intro h
    rcases lt_or_le (sortVal k a) (sortVal k b) with h2 | h2
    · exact Or.inl h2
    · exact Or.inr (lt_of_le_of_lt h2 h)
  | desc =>
    simp only [compareLt, decide_eq_true_eq]
    intro h
    rcases lt_or_le (sortVal k b) (sortVal k a) with h2 | h2
    · exact Or.inl h2
    · exact Or.inr (lt_of_lt_of_le h h2)

theorem compareLt_false_keyLe (k : SortKey) (d : SortDir) (a b : CandidateRow)
    (h : compareLt k d b a = false) : keyLe k d a b := by
  cases d <;> simp only [compareLt, decide_eq_false_iff_not, not_lt] at h <;> exact h

/-- Claim C6 (Candidate Ranker): for every collection of candidate rows,
every sort key and direction, `renderComparison` performs a stable sort on
the chosen field with unknown/missing values read as 0: the result is
ordered by the key in the chosen direction, rows with equal key values keep
their original relative order (filtering on any key value commutes with the
sort), the result is a permutation of the input, and toggling the direction
twice reproduces the same order, ties included. -/
theorem claim_C6_candidateRanker (rows : List CandidateRow) (k : SortKey) (d : SortDir) :
    (renderComparisonSort rows k d).Pairwise (keyLe k d)
    ∧ (∀ v : ℚ, (renderComparisonSort rows k d).filter (fun r => decide (sortVal k r = v))
        = rows.filter (fun r => decide (sortVal k r = v)))
    ∧ renderComparisonSort rows k (SortDir.toggle (SortDir.toggle d)) = renderComparisonSort rows k d
    ∧ List.Perm (renderComparisonSort rows k d) rows := by
  refine ⟨?_, ?_, ?_, ?_⟩
  · have h := pairwise_stableSort (compareLt k d) (compareLt_asym k d) (compareLt_negtrans k d) rows
    exact h.imp (fun hab => compareLt_false_keyLe k d _ _ hab)
  · intro v
    refine filter_stableSort _ _ ?_ rows
    intro a b ha hb
    have ha2 : sortVal k a = v := of_decide_eq_true ha
    have hb2 : sortVal k b = v := of_decide_eq_true hb
    cases d <;> simp [compareLt, ha2, hb2]
  · cases d <;> rfl
  · exact stableSort_perm _ rows

theorem reproLt_asym : ∀ a b : OutputRow, reproLt a b = true → reproLt b a = false := by
  intro a b h
  simp only [reproLt, Bool.or_eq_true, Bool.and_eq_true, decide_eq_true_eq] at h
  simp only [reproLt, Bool.or_eq_false_iff, Bool.and_eq_false_iff, decide_eq_false_iff_not]
  rcases h with h | ⟨h1, h2⟩
  · exact ⟨by omega, Or.inl (by omega)⟩
  · exact ⟨by omega, Or.inr (not_lt.mpr (le_of_lt h2))⟩

theorem reproLt_negtrans : ∀ a b c : OutputRow,
    reproLt a c = true → reproLt a b = true ∨ reproLt b c = true := by
  intro a b c h
  simp only [reproLt, Bool.or_eq_true, Bool.and_eq_true, decide_eq_true_eq] at h ⊢
  rcases h with h | ⟨h1, h2⟩
  · rcases lt_or_le b.qty a.qty with h3 | h3
    · exact Or.inl (Or.inl h3)
    · exact Or.inr (Or.inl (by omega))
  · rcases lt_trichotomy b.qty a.qty with h3 | h3 | h3
    · exact Or.inl (Or.inl h3)
    · rcases lt_or_le b.typeId c.typeId with h4 | h4
      · exact Or.inr (Or.inr ⟨by omega, h4⟩)
      · exact Or.inl (Or.inr ⟨h3, lt_of_lt_of_le h2 h4⟩)
    · exact Or.inr (Or.inl (by omega))

theorem valueLt_asym : ∀ a b : ReproRow, valueLt a b = true → valueLt b a = false := by
  intro a b
  simp only [valueLt, decide_eq_true_eq, decide_eq_false_iff_not]
  exact fun h => lt_asymm h

theorem valueLt_negtrans : ∀ a b c : ReproRow,
    valueLt a c = true → valueLt a b = true ∨ valueLt b c = true := by
  intro a b c
  simp only [valueLt, decide_eq_true_eq]
  intro h
  rcases lt_or_le (b.totalValue.getD 0) (a.totalValue.getD 0) with h2 | h2
  · exact Or.inl h2
  · exact Or.inr (lt_of_lt_of_le h h2)

/-- Counterexample to claim C7 as stated: the reprocessing rows shown by the
calculation pass (src/app.js:815) are sorted by total value, not by
quantity.  With two outputs of quantities 10 and 50 where the former is far
more valuable, the produced order is quantity-ascending. -/
theorem claim_C7_counterexample :
    ((onCalculateRow (fun t => if t = 2 then some 100 else if t = 3 then some 1 else none)
        7 10 1 [⟨2, 1⟩, ⟨3, 5⟩] 1 0 100).reprocessRows).map (fun r => r.qty) = [10, 50]
    ∧ ¬ ((onCalculateRow (fun t => if t = 2 then some 100 else if t = 3 then some 1 else none)
        7 10 1 [⟨2, 1⟩, ⟨3, 5⟩] 1 0 100).reprocessRows).Pairwise (fun a b => b.qty ≤ a.qty) := by
  have hrows : (onCalculateRow (fun t => if t = 2 then some 100 else if t = 3 then some 1 else none)
      7 10 1 [⟨2, 1⟩, ⟨3, 5⟩] 1 0 100).reprocessRows
      = [⟨2, 10, some 100, some 1000⟩, ⟨3, 50, some 1, some 50⟩] := by
    norm_num [onCalculateRow, reproRowOf, stableSort, sInsert, valueLt]
  rw [hrows]
  norm_num [List.pairwise_cons]

/-- Claim C7 as amended: `computeReprocessOutputs` orders its output rows
descending by quantity with ties broken by ascending material identity, as
claimed; but the reprocessing rows produced by the calculation pass
(`onCalculate`) are instead ordered descending by total value (unknown
values read as 0), with no secondary tie-break. -/
theorem claim_C7_amended (units portionSize yieldPct typeId yieldFrac taxPct usedSeconds : ℚ)
    (priceMap : ℚ → Option ℚ) (typeMaterials : List MatEntry) :
    (computeReprocessOutputs units portionSize typeMaterials yieldPct).Pairwise
      (fun a b => b.qty ≤ a.qty ∧ (a.qty = b.qty → a.typeId ≤ b.typeId))
    ∧ ((onCalculateRow priceMap typeId units portionSize typeMaterials
          yieldFrac taxPct usedSeconds).reprocessRows).Pairwise
      (fun a b => b.totalValue.getD 0 ≤ a.totalValue.getD 0) := by
  constructor
  · simp only [computeReprocessOutputs]
    refine (pairwise_stableSort reproLt reproLt_asym reproLt_negtrans _).imp ?_
    intro a b hab
    simp only [reproLt, Bool.or_eq_false_iff, Bool.and_eq_false_iff,
      decide_eq_false_iff_not] at hab
    obtain ⟨h1, h2⟩ := hab
    refine ⟨by omega, ?_⟩
    intro heq
    rcases h2 with h2 | h2
    · omega
    · exact not_lt.mp h2
  · simp only [onCalculateRow]
    refine (pairwise_stableSort valueLt valueLt_asym valueLt_negtrans _).imp ?_
    intro a b hab
    simp only [valueLt, decide_eq_false_iff_not, not_lt] at hab
    exact hab

/-- Counterexample to claim C1 as stated: at `units = 150`,
`portionSize = 100`, breakdown `{34: 4}` and full yield, the claim
predicts `⌊150/100⌋ = 1` full portion and output quantity
`⌊1*4*1 + 1e-9⌋ = 4`, but `computeReprocessOutputs` divides without
flooring (`batches = 1.5`) and outputs quantity 6. -/
theorem claim_C1_counterexample :
    (computeReprocessOutputs 150 100 [⟨34, 4⟩] 100).map (fun r => r.qty) = [6]
    ∧ (⌊(150 : ℚ) / 100⌋ : ℤ) = 1
    ∧ (⌊((1 : ℤ) : ℚ) * 4 * 1 + eps⌋ : ℤ) = 4
    ∧ ([6] : List ℤ) ≠ [4] := by
  refine ⟨?_, ?_, ?_, by simp⟩
  · norm_num [computeReprocessOutputs, clamp, stableSort, sInsert, eps, Int.floor_eq_iff]
  · norm_num [Int.floor_eq_iff]
  · norm_num [eps, Int.floor_eq_iff]

/-- Claim C1 as amended: in `computeReprocessOutputs` the portion count is
`units / portionSize` without flooring (a partial portion contributes
proportionally) and each output quantity is
`⌊batches * quantityPerPortion * yieldFraction + 1e-9⌋`; on the
`onCalculate` path the portion count is `⌊units / portionSize⌋` as claimed
but each output quantity is `⌊portions * quantityPerPortion * yieldFraction⌋`
without the `1e-9` term.  The spec scenarios 2 and 3 (1000 units, portion
100, breakdown `{A: 400}`, yield 1 resp. 0.54321 giving 4000 resp. 2172)
hold on the `computeReprocessOutputs` path. -/
theorem claim_C1_amended (units portionSize yieldPct typeId yieldFrac taxPct usedSeconds : ℚ)
    (priceMap : ℚ → Option ℚ) (typeMaterials : List MatEntry) :
    (∀ r ∈ computeReprocessOutputs units portionSize typeMaterials yieldPct,
      r.qty = ⌊units / max 1 (if portionSize = 0 then 1 else portionSize)
                * r.qtyPerPortion * (clamp yieldPct 0 100 / 100) + eps⌋)
    ∧ List.Perm
        ((onCalculateRow priceMap typeId units portionSize typeMaterials
            yieldFrac taxPct usedSeconds).reprocessRows)
        (typeMaterials.map (fun mat =>
          ({ typeId := mat.material_type_id,
             qty := ⌊(⌊units / max 1 (if portionSize = 0 then 1 else portionSize)⌋ : ℚ)
                      * mat.quantity * yieldFrac⌋,
             sellMin := priceMap mat.material_type_id,
             totalValue := (priceMap mat.material_type_id).map (fun s =>
               s * ((⌊(⌊units / max 1 (if portionSize = 0 then 1 else portionSize)⌋ : ℚ)
                      * mat.quantity * yieldFrac⌋ : ℤ) : ℚ)) } : ReproRow)))
    ∧ (computeReprocessOutputs 1000 100 [⟨34, 400⟩] 100).map (fun r => r.qty) = [4000]
    ∧ (computeReprocessOutputs 1000 100 [⟨34, 400⟩] (54321 / 1000)).map (fun r => r.qty)
        = [2172] := by
  refine ⟨?_, ?_, ?_, ?_⟩
  · intro r hr
    simp only [computeReprocessOutputs, mem_stableSort, List.mem_filterMap] at hr
    obtain ⟨mat, hmat, hsome⟩ := hr
    by_cases h1 : mat.material_type_id ≤ 0
    · simp [h1] at hsome
    · by_cases h2 : mat.quantity ≤ 0
      · simp [h1, h2] at hsome
      · simp only [h1, h2, if_false, ite_false] at hsome
        obtain rfl := Option.some.inj hsome
        rfl
  · simp only [onCalculateRow]
    exact stableSort_perm valueLt _
  · norm_num [computeReprocessOutputs, clamp, stableSort, sInsert, eps, Int.floor_eq_iff]
  · norm_num [computeReprocessOutputs, clamp, stableSort, sInsert, eps, Int.floor_eq_iff]

/-- Witness for C1 at the spec end-to-end scenario 2: the single output row
produced for 1000 units, portion size 100, breakdown `{34: 400}` at full
yield has quantity 4000, matching the epsilon-floor formula. -/
theorem claim_C1_witness :
    computeReprocessOutputs 1000 100 [⟨34, 400⟩] 100 = [⟨34, 4000, 400⟩]
    ∧ (4000 : ℤ) = ⌊(1000 : ℚ) / max 1 (if (100 : ℚ) = 0 then 1 else 100)
        * 400 * (clamp 100 0 100 / 100) + eps⌋ := by
  have hlist : computeReprocessOutputs 1000 100 [⟨34, 400⟩] 100 = [⟨34, 4000, 400⟩] := by
    norm_num [computeReprocessOutputs, clamp, stableSort, sInsert, eps, Int.floor_eq_iff]
  have h := (claim_C1_amended 1000 100 100 1 0 100 7 (fun _ => none) [⟨34, 400⟩]).1
    ⟨34, 4000, 400⟩ (by rw [hlist]; exact List.mem_singleton.mpr rfl)
  exact ⟨hlist, h⟩

/-- Claim C5 (Valuation Aggregator): an unknown sell price on the harvested
material makes `rawTotal` unknown (`none`), never 0; the reprocessing gross
total is exactly the sum of `quantity * price` over the output rows with a
known price; every breakdown entry is listed as an output row, and a row
with an unknown price has an unknown (not zero) total value while
contributing nothing to the sum. -/
theorem claim_C5_valuation (priceMap : ℚ → Option ℚ)
    (typeId units portionSize yieldFrac taxPct usedSeconds : ℚ) (typeMaterials : List MatEntry) :
    (priceMap typeId = none →
      (onCalculateRow priceMap typeId units portionSize typeMaterials
        yieldFrac taxPct usedSeconds).rawTotal = none)
    ∧ (onCalculateRow priceMap typeId units portionSize typeMaterials
        yieldFrac taxPct usedSeconds).reprocessTotal
        = (((onCalculateRow priceMap typeId units portionSize typeMaterials
            yieldFrac taxPct usedSeconds).reprocessRows).filterMap (fun r => r.totalValue)).sum
    ∧ (∀ r ∈ (onCalculateRow priceMap typeId units portionSize typeMaterials
          yieldFrac taxPct usedSeconds).reprocessRows,
        r.totalValue = r.sellMin.map (fun s => s * (r.qty : ℚ))
        ∧ (r.sellMin = none → r.totalValue = none))
    ∧ ((onCalculateRow priceMap typeId units portionSize typeMaterials
        yieldFrac taxPct usedSeconds).reprocessRows).length = typeMaterials.length := by
  refine ⟨?_, ?_, ?_, ?_⟩
  · intro h
    simp only [onCalculateRow, h, Option.map_none']
  · simp only [onCalculateRow]
    rw [sum_getD_eq_sum_filterMap]
    exact (((stableSort_perm valueLt _).filterMap _).sum_eq).symm
  · intro r hr
    simp only [onCalculateRow, mem_stableSort, List.mem_map] at hr
    obtain ⟨mat, hmat, rfl⟩ := hr
    refine ⟨rfl, ?_⟩
    intro hnone
    simp only [reproRowOf] at hnone ⊢
    rw [hnone]
    rfl
  · simp only [onCalculateRow]
    rw [(stableSort_perm valueLt _).length_eq, List.length_map]

/-- Witness for C5: with a price map that knows no prices, the raw total of
a candidate is unknown (`none`), and its single breakdown entry is still
listed as an output row. -/
theorem claim_C5_witness :
    (onCalculateRow (fun _ => none) 7 10 1 [⟨2, 1⟩] 1 0 100).rawTotal = none
    ∧ ((onCalculateRow (fun _ => none) 7 10 1 [⟨2, 1⟩] 1 0 100).reprocessRows).length = 1 := by
  obtain ⟨h1, -, -, h4⟩ := claim_C5_valuation (fun _ => none) 7 10 1 1 0 100 [⟨2, 1⟩]
  exact ⟨h1 rfl, by simpa using h4⟩

theorem resolveLoop_ok_fst (resolve : String → Option ℕ) :
    ∀ l ts, resolveLoop resolve l = Except.ok ts → ts.map Prod.fst = l := by
  intro l
  induction l with
  | nil =>
    intro ts h
    simp only [resolveLoop] at h
    cases h
    rfl
  | cons nm rest ih =>
    intro ts h
    simp only [resolveLoop] at h
    cases hr : resolve nm with
    | none => rw [hr] at h; cases h
    | some id =>
      rw [hr] at h
      cases hrec : resolveLoop resolve rest with
      | error e => rw [hrec] at h; cases h
      | ok ts2 =>
        rw [hrec] at h
        cases h
        simp [ih ts2 hrec]

/-- Claim C10 (implicit candidate cap): when candidates are given as names,
`onCalculate` resolves and processes at most the first 12: the outcome
depends only on the first 12 names, a successful resolution yields at most
12 targets whose names are exactly the first 12 entered, names after the
twelfth are silently excluded rather than resolved or treated as an error,
and the warning fires exactly when more than 12 names were entered. -/
theorem claim_C10_candidateCap (resolve : String → Option ℕ) (names : List String) :
    onCalculateTargets resolve names = onCalculateTargets resolve (names.take 12)
    ∧ (∀ ts, onCalculateTargets resolve names = Except.ok ts →
        ts.length ≤ 12 ∧ ts.map Prod.fst = names.take 12)
    ∧ (capWarning names = true ↔ 12 < names.length) := by
  refine ⟨?_, ?_, by simp [capWarning]⟩
  · by_cases h : names = []
    · subst h; rfl
    · have h2 : names.take 12 ≠ [] := by
        intro hc
        rcases List.take_eq_nil_iff.mp hc with h12 | h12
        · exact absurd h12 (by norm_num)
        · exact h h12
      rw [onCalculateTargets, onCalculateTargets, if_neg h, if_neg h2, List.take_take]
      norm_num
  · intro ts h
    rw [onCalculateTargets] at h
    by_cases hn : names = []
    · rw [if_pos hn] at h; cases h
    · rw [if_neg hn] at h
      have hfst := resolveLoop_ok_fst resolve (names.take 12) ts h
      refine ⟨?_, hfst⟩
      have hlen : ts.length = (names.take 12).length := by
        rw [← hfst, List.length_map]
      rw [hlen, List.length_take]
      exact min_le_left _ _

/-- Witness for C10: with 13 names and a resolver that always succeeds,
exactly the first 12 are resolved, in order; the warning fires. -/
theorem claim_C10_witness :
    onCalculateTargets (fun _ => some 5)
        ["a", "b", "c", "d", "e", "f", "g", "h", "i", "j", "k", "l", "m"]
      = Except.ok
        [("a", 5), ("b", 5), ("c", 5), ("d", 5), ("e", 5), ("f", 5),
         ("g", 5), ("h", 5), ("i", 5), ("j", 5), ("k", 5), ("l", 5)]
    ∧ ([("a", 5), ("b", 5), ("c", 5), ("d", 5), ("e", 5), ("f", 5),
        ("g", 5), ("h", 5), ("i", 5), ("j", 5), ("k", 5), ("l", 5)]
          : List (String × ℕ)).length ≤ 12
    ∧ capWarning ["a", "b", "c", "d", "e", "f", "g", "h", "i", "j", "k", "l", "m"] = true := by
  have hok : onCalculateTargets (fun _ => some 5)
      ["a", "b", "c", "d", "e", "f", "g", "h", "i", "j", "k", "l", "m"]
      = Except.ok
        [("a", 5), ("b", 5), ("c", 5), ("d", 5), ("e", 5), ("f", 5),
         ("g", 5), ("h", 5), ("i", 5), ("j", 5), ("k", 5), ("l", 5)] := rfl
  refine ⟨hok, ?_, ?_⟩
  · exact ((claim_C10_candidateCap (fun _ => some 5)
      ["a", "b", "c", "d", "e", "f", "g", "h", "i", "j", "k", "l", "m"]).2.1 _ hok).1
  · exact (claim_C10_candidateCap (fun _ => some 5)
      ["a", "b", "c", "d", "e", "f", "g", "h", "i", "j", "k", "l", "m"]).2.2.mpr (by norm_num)

end EveHarvest
